import Mathlib

/-!
Shallow embedding of the rgbmatrix screensavers program (src/main.py) and
verification of the frozen claims about it.

Modelling conventions:
- Pixel buffers (displayio.Bitmap wrapped by the Buffer class) are total
  maps from integer coordinate pairs to integer palette values; fill and
  item assignment are the only operations the drawing code uses.
- random.random() results are drawn from an oracle stream of rationals,
  random.randint results from an oracle stream of naturals mapped into the
  requested interval; randint raises ValueError when the interval is empty,
  exactly as Python does.
- while True rejection-sampling loops are modelled with explicit fuel;
  running out of fuel returns a distinguished error that stands for
  divergence.
- Python exceptions are modelled with Except.
-/

/-- Python exceptions that the modelled code can raise, plus a marker for
a rejection loop that did not terminate within its fuel. -/
inductive PyErr where
  | attributeError : PyErr
  | valueError : PyErr
  | fuelExhausted : PyErr
deriving DecidableEq, Repr

/-- Oracle for the random module: a stream of rationals standing for
successive random.random() results and a stream of naturals providing the
entropy for successive random.randint results. -/
structure Rng where
  f : Nat → ℚ
  n : Nat → Nat

/-- Cursor into the two oracle streams of an Rng. -/
structure RngPos where
  fi : Nat
  ni : Nat
deriving DecidableEq, Repr

/-- random.random(): take the next rational from the float stream. -/
def randFloat (g : Rng) (p : RngPos) : ℚ × RngPos :=
  (g.f p.fi, { p with fi := p.fi + 1 })

/-- random.randint(a, b): raises ValueError on an empty interval (b < a),
otherwise returns a value in [a, b] derived from the next entropy value. -/
def randintE (g : Rng) (p : RngPos) (a b : Int) : Except PyErr (Int × RngPos) :=
  if b < a then .error .valueError
  else .ok (a + (g.n p.ni : Int) % (b - a + 1), { p with ni := p.ni + 1 })

/-- A pixel buffer: the value plane of a displayio.Bitmap, as wrapped by the
Buffer class (src/main.py lines 11-43). Item access uses coordinate pairs. -/
def Buffer : Type := Int × Int → Int

/-- buffer[(x, y)] = value (Buffer.__setitem__, line 35-36). -/
def bufSet (b : Buffer) (q : Int × Int) (v : Int) : Buffer :=
  fun r => if r = q then v else b r

/-- buffer.fill(value) (Buffer.fill, lines 29-30). -/
def bufFill (v : Int) : Buffer := fun _ => v

/-- The index sequence of pythons range(n): 0, 1, ..., n-1. -/
def ascList : Nat → List Int
  | 0 => []
  | n + 1 => ascList n ++ [(n : Int)]

/-- The index sequence of pythons reversed(range(n)): n-1, ..., 1, 0. -/
def descList : Nat → List Int
  | 0 => []
  | n + 1 => (n : Int) :: descList n

/-! ## MatrixScreensaver (src/main.py lines 81-126) -/

/-- Lines 110-113 of MatrixScreensaver.draw: with probability 0.3 the value
is decremented, and the written value is max(value, 0). -/
def fadeValue (value : Int) (r : ℚ) : Int :=
  max (if r < 3/10 then value - 1 else value) 0

/-- One iteration of the inner column loop of MatrixScreensaver.draw
(lines 102-113): read prev[(x, y)], copy it to curr[(x+1, y)], then either
write value - 3 at (x, y) when the value is 15 (continue skips the random
draw) or write the faded value at (x, y), consuming one random float. -/
def decayStep (g : Rng) (prev : Buffer) (y : Int) (acc : Buffer × RngPos) (x : Int) :
    Buffer × RngPos :=
  let value := prev (x, y)
  let b := bufSet acc.1 (x + 1, y) value
  if value = 15 then
    (bufSet b (x, y) (value - 3), acc.2)
  else
    let (r, p) := randFloat g acc.2
    (bufSet b (x, y) (fadeValue value r), p)

/-- The inner loop for x in reversed(range(width - 1)) of one row
(lines 101-113). -/
def shiftRow (g : Rng) (width : Int) (prev : Buffer) (y : Int) (acc : Buffer × RngPos) :
    Buffer × RngPos :=
  (descList (width - 1).toNat).foldl (decayStep g prev y) acc

/-- The outer loop for y in range(height) (lines 100-113). -/
def shiftLoop (g : Rng) (width height : Int) (prev : Buffer) (acc : Buffer × RngPos) :
    Buffer × RngPos :=
  (ascList height.toNat).foldl (fun a y => shiftRow g width prev y a) acc

/-- The while True spawn-row rejection loop of MatrixScreensaver.draw
(lines 115-119): redraw randint(0, height - 1) until the result is not in
recent_rows. Fuel bounds the number of attempts. -/
def pickRow (g : Rng) (height : Int) (recent_rows : List Int) :
    Nat → RngPos → Except PyErr (Int × RngPos)
  | 0, _ => .error .fuelExhausted
  | fuel + 1, p =>
    match randintE g p 0 (height - 1) with
    | .error e => .error e
    | .ok (y, p1) =>
      if y ∈ recent_rows then pickRow g height recent_rows fuel p1 else .ok (y, p1)

/-- MatrixScreensaver.draw (lines 97-126). Fills curr with 0, runs the
shift/decay loops, picks a spawn row, appends it to recent_rows, pops the
LAST list element when the length exceeds 10 (pythons list.pop() with no
argument removes the final element), and with probability 0.4 writes 15 at
column 0 of the spawn row. Returns the written buffer, the new recent_rows
and the advanced rng cursor. -/
def MatrixScreensaver.draw (g : Rng) (width height : Int) (recent_rows : List Int)
    (prev : Buffer) (p : RngPos) (fuel : Nat) :
    Except PyErr (Buffer × List Int × RngPos) :=
  let acc := shiftLoop g width height prev (bufFill 0, p)
  match pickRow g height recent_rows fuel acc.2 with
  | .error e => .error e
  | .ok (y, p1) =>
    let recent1 := recent_rows ++ [y]
    let recent2 := if recent1.length > 10 then recent1.dropLast else recent1
    let (r, p2) := randFloat g p1
    let curr := if r < 2/5 then bufSet acc.1 (0, y) 15 else acc.1
    .ok (curr, recent2, p2)

/-- Repeated ScreensaverManager.run frames for the matrix screensaver: the
buffer produced by one draw is the prev buffer of the next (the manager
swaps the two buffers each frame, and draw never reads curr before filling
it). -/
def matrixRun (g : Rng) (width height : Int) (fuel : Nat) :
    Nat → List Int → Buffer → RngPos → Except PyErr (List Int × Buffer × RngPos)
  | 0, recent, b, p => .ok (recent, b, p)
  | k + 1, recent, b, p =>
    match MatrixScreensaver.draw g width height recent b p fuel with
    | .error e => .error e
    | .ok (b1, recent1, p1) => matrixRun g width height fuel k recent1 b1 p1

/-! ## PipesScreensaver (src/main.py lines 128-202) -/

/-- The colors class attribute (lines 129-139). -/
def PipesScreensaver.colors : List Int :=
  [0x000000, 0xe0e0e0, 0xcc6666, 0xde935f, 0xf0c674, 0xb5bd68, 0x8abeb7, 0x81a2be, 0xb294bb]

/-- The mutable attributes of a PipesScreensaver instance. width and height
embed the _viewport_width and _viewport_height attributes of the Screensaver
base class (lines 47-48), read through the width and height properties. -/
structure PipesScreensaver where
  width : Int
  height : Int
  num_pipes : Int
  ticks_without_turn : Int
  color : Int
  direction : Int
  position : Int × Int
deriving DecidableEq, Repr

/-- Screensaver.is_viewport_valid (lines 58-59), as the proposition the
returned bool decides. -/
def PipesScreensaver.is_viewport_valid (s : PipesScreensaver) : Prop :=
  s.width > 0 ∧ s.height > 0

instance (s : PipesScreensaver) : Decidable s.is_viewport_valid :=
  inferInstanceAs (Decidable (s.width > 0 ∧ s.height > 0))

/-- The position is inside the viewport. -/
def PipesScreensaver.posInBounds (s : PipesScreensaver) : Prop :=
  0 ≤ s.position.1 ∧ s.position.1 < s.width ∧ 0 ≤ s.position.2 ∧ s.position.2 < s.height

instance (s : PipesScreensaver) : Decidable s.posInBounds :=
  inferInstanceAs (Decidable (0 ≤ s.position.1 ∧ s.position.1 < s.width ∧
    0 ≤ s.position.2 ∧ s.position.2 < s.height))

/-- PipesScreensaver.new_pipe (lines 152-166): reset ticks_without_turn,
increment num_pipes, draw a color index in [1, len(colors) - 1], a direction
in [0, 3], and a start position on the edge matching the direction, with the
perpendicular coordinate drawn by randint(1, extent - 2). -/
def PipesScreensaver.new_pipe (g : Rng) (s : PipesScreensaver) (p : RngPos) :
    Except PyErr (PipesScreensaver × RngPos) :=
  let s1 := { s with ticks_without_turn := 0, num_pipes := s.num_pipes + 1 }
  match randintE g p 1 ((PipesScreensaver.colors.length : Int) - 1) with
  | .error e => .error e
  | .ok (c, p1) =>
    match randintE g p1 0 3 with
    | .error e => .error e
    | .ok (d, p2) =>
      let s2 := { s1 with color := c, direction := d }
      if d = 0 then
        match randintE g p2 1 (s.height - 2) with
        | .error e => .error e
        | .ok (yy, p3) => .ok ({ s2 with position := (0, yy) }, p3)
      else if d = 1 then
        match randintE g p2 1 (s.width - 2) with
        | .error e => .error e
        | .ok (xx, p3) => .ok ({ s2 with position := (xx, s.height - 1) }, p3)
      else if d = 2 then
        match randintE g p2 1 (s.height - 2) with
        | .error e => .error e
        | .ok (yy, p3) => .ok ({ s2 with position := (s.width - 1, yy) }, p3)
      else if d = 3 then
        match randintE g p2 1 (s.width - 2) with
        | .error e => .error e
        | .ok (xx, p3) => .ok ({ s2 with position := (xx, 0) }, p3)
      else
        .ok (s2, p2)

/-- PipesScreensaver.reset (lines 141-143): num_pipes = 0 then new_pipe(). -/
def PipesScreensaver.reset (g : Rng) (s : PipesScreensaver) (p : RngPos) :
    Except PyErr (PipesScreensaver × RngPos) :=
  PipesScreensaver.new_pipe g { s with num_pipes := 0 } p

/-- The nested copy loop of PipesScreensaver.draw (lines 173-175): copy
every viewport cell of prev into curr. -/
def copyLoop (width height : Int) (prev curr : Buffer) : Buffer :=
  (ascList height.toNat).foldl
    (fun b y => (ascList width.toNat).foldl (fun b2 x => bufSet b2 (x, y) (prev (x, y))) b)
    curr

/-- The position advance of PipesScreensaver.draw (lines 179-187): one step
in the current direction; an unrecognized direction leaves the position
unchanged (no else branch in the source). -/
def advancePos (direction : Int) (pos : Int × Int) : Int × Int :=
  if direction = 0 then (pos.1 + 1, pos.2)
  else if direction = 1 then (pos.1, pos.2 - 1)
  else if direction = 2 then (pos.1 - 1, pos.2)
  else if direction = 3 then (pos.1, pos.2 + 1)
  else pos

/-- PipesScreensaver.draw (lines 168-202). When num_pipes > 10, line 170
executes self._reset_buffer(current_buffer); neither PipesScreensaver nor
its base class Screensaver defines an attribute named in that way (the
method defined at line 74 is reset_buffer), so the attribute lookup raises
AttributeError before anything else happens on that path. Otherwise the
draw copies prev into curr, writes color at position, advances position,
runs the turn logic (turn_chance = (ticks_without_turn - 1) / 25, one float
for the turn test and, when turning, one more float for the turn sign,
direction updated mod 4), and finally calls new_pipe when the advanced
position left the viewport. -/
def PipesScreensaver.draw (g : Rng) (s : PipesScreensaver) (prev curr : Buffer)
    (p : RngPos) : Except PyErr (PipesScreensaver × Buffer × RngPos) :=
  if 10 < s.num_pipes then
    .error .attributeError
  else
    let curr1 := copyLoop s.width s.height prev curr
    let curr2 := bufSet curr1 s.position s.color
    let pos1 := advancePos s.direction s.position
    let turn_chance : ℚ := ((s.ticks_without_turn : ℚ) - 1) / 25
    let (r, p1) := randFloat g p
    let t3 :=
      if r < turn_chance then
        let (r2, p2) := randFloat g p1
        let turning : Int := if r2 < 1/2 then -1 else 1
        (((s.direction + turning) % 4, (0 : Int)), p2)
      else
        ((s.direction, s.ticks_without_turn + 1), p1)
    let s3 : PipesScreensaver :=
      { s with position := pos1, direction := t3.1.1, ticks_without_turn := t3.1.2 }
    if s3.position.1 < 0 ∨ s3.width ≤ s3.position.1 ∨
        s3.position.2 < 0 ∨ s3.height ≤ s3.position.2 then
      match PipesScreensaver.new_pipe g s3 t3.2 with
      | .error e => .error e
      | .ok (s4, p4) => .ok (s4, curr2, p4)
    else
      .ok (s3, curr2, t3.2)

/-! ## ScreensaverManager (src/main.py lines 204-290) -/

/-- Tags for the two screensaver classes registered in the main program
(lines 303-304); the cycle logic only inspects the roster length. -/
inductive ScreensaverTag where
  | matrixTag : ScreensaverTag
  | pipesTag : ScreensaverTag
deriving DecidableEq, Repr

/-- The roster and active-index state of ScreensaverManager (lines 206-207).
The display, the two owned buffers and the presented-buffer flag are not
touched by the index logic of cycle and are omitted from this record. -/
structure ScreensaverManager where
  screensavers : List ScreensaverTag
  _current_screensaver : Int
deriving DecidableEq, Repr

/-- The while True rejection loop of ScreensaverManager.cycle
(lines 266-270): redraw randint(0, n - 1) until the result differs from the
current index. Fuel bounds the number of attempts. -/
def cycleLoop (g : Rng) (n : Nat) (current : Int) :
    Nat → RngPos → Except PyErr (Int × RngPos)
  | 0, _ => .error .fuelExhausted
  | fuel + 1, p =>
    match randintE g p 0 ((n : Int) - 1) with
    | .error e => .error e
    | .ok (j, p1) =>
      if j ≠ current then .ok (j, p1) else cycleLoop g n current fuel p1

/-- ScreensaverManager.cycle (lines 257-272): no-op roster of size 0, index
0 for a singleton roster, otherwise rejection-sample a fresh index. The
trailing self.reset() call re-initializes viewport, palettes and buffers of
the newly active screensaver and leaves both the roster and
_current_screensaver unchanged, so it does not appear in this index-level
model. -/
def ScreensaverManager.cycle (g : Rng) (s : ScreensaverManager) (p : RngPos) (fuel : Nat) :
    Except PyErr (ScreensaverManager × RngPos) :=
  let num_screensavers := s.screensavers.length
  if num_screensavers = 0 then .ok (s, p)
  else if num_screensavers = 1 then .ok ({ s with _current_screensaver := 0 }, p)
  else
    match cycleLoop g num_screensavers s._current_screensaver fuel p with
    | .error e => .error e
    | .ok (j, p1) => .ok ({ s with _current_screensaver := j }, p1)

/-! ## Concrete inputs and result projections used by the claim theorems -/

/-- A concrete pipes state with num_pipes = 11, as reached after the
eleventh pipe has spawned. -/
def pipesOverflowState : PipesScreensaver :=
  { width := 4, height := 3, num_pipes := 11, ticks_without_turn := 0,
    color := 2, direction := 0, position := (1, 1) }

/-- A concrete manager state with the two screensavers the main program
registers, index 0 active. -/
def managerBoth : ScreensaverManager :=
  { screensavers := [.matrixTag, .pipesTag], _current_screensaver := 0 }

/-- A full spawn history: the ten rows 0..9. -/
def recentTen : List Int := [0, 1, 2, 3, 4, 5, 6, 7, 8, 9]

/-- The entropy stream that makes the spawn choices 0, 1, ..., 9, 10, 10. -/
def rngC5 : Rng := ⟨fun _ => 1/2, fun i => min i 10⟩

/-- Entropy stream whose second randint draw (the direction) yields 1. -/
def rngDir1 : Rng := ⟨fun _ => 0, fun i => if i = 1 then 1 else 0⟩

/-- Entropy stream whose randint draws are all minimal (direction 0). -/
def rngDir0 : Rng := ⟨fun _ => 0, fun _ => 0⟩

/-- A concrete valid 3 by 3 pipes state. -/
def pipesThree : PipesScreensaver :=
  { width := 3, height := 3, num_pipes := 1, ticks_without_turn := 0,
    color := 1, direction := 0, position := (0, 1) }

/-- A concrete 4 by 3 pipes state with the pipe in mid-canvas. -/
def pipesMid : PipesScreensaver :=
  { width := 4, height := 3, num_pipes := 1, ticks_without_turn := 0,
    color := 2, direction := 0, position := (1, 1) }

/-- The state one draw later from pipesMid, under float stream 1/2. -/
def pipesMidAfter : PipesScreensaver :=
  { width := 4, height := 3, num_pipes := 1, ticks_without_turn := 1,
    color := 2, direction := 0, position := (2, 1) }

/-- A pipe about to step off the right edge of a 4 by 3 viewport. -/
def pipesAtEdge : PipesScreensaver :=
  { width := 4, height := 3, num_pipes := 1, ticks_without_turn := 0,
    color := 2, direction := 0, position := (3, 1) }

/-- The state one draw later, under the all-zero entropy stream and float
stream 1/2: new_pipe already ran inside that same draw call. -/
def pipesAfterExit : PipesScreensaver :=
  { width := 4, height := 3, num_pipes := 2, ticks_without_turn := 0,
    color := 1, direction := 0, position := (0, 1) }

/-- The relation between a prev value and the value the decay write of
MatrixScreensaver.draw leaves at the same cell: value 15 becomes 12, any
other value stays or drops by one (clamped at 0) depending on the random
draw. -/
def decayRel (v out : Int) : Prop :=
  if v = 15 then out = v - 3 else out = max (v - 1) 0 ∨ out = max v 0

/-- Projections of a draw result, with defaults on the error branch; used
to state concrete evaluations without metavariables. -/
def okBuf (e : Except PyErr (Buffer × List Int × RngPos)) : Buffer :=
  match e with
  | .ok (b, _, _) => b
  | .error _ => bufFill 0

/-- The recent-rows component of a draw result. -/
def okRec (e : Except PyErr (Buffer × List Int × RngPos)) : List Int :=
  match e with
  | .ok (_, r, _) => r
  | .error _ => []

/-- The rng-cursor component of a draw result. -/
def okPos (e : Except PyErr (Buffer × List Int × RngPos)) : RngPos :=
  match e with
  | .ok (_, _, p) => p
  | .error _ => ⟨0, 0⟩

/-- Whether a draw result is a success. -/
def drawOk (e : Except PyErr (Buffer × List Int × RngPos)) : Bool :=
  match e with
  | .ok _ => true
  | .error _ => false

/-- The oracle used by the concrete matrix evaluations: every float draw
is 1/2, every randint entropy value is 0. -/
def rngHalfZero : Rng := ⟨fun _ => 1/2, fun _ => 0⟩

/-- The 3 by 1 prev buffer holding 15 at (1, 0) and 0 elsewhere. -/
def prevC6 : Buffer := fun q => if q = (1, 0) then 15 else 0

/-- The 4 by 3 prev buffer of the end-to-end scenario: 15 at (0, 1), 0
elsewhere. -/
def prevC3 : Buffer := fun q => if q = (0, 1) then 15 else 0

/-! ## Helper lemmas about the random oracle -/

/-- A successful randint lies in the requested interval. -/
theorem randintE_ok_bounds (g : Rng) (p : RngPos) (a b v : Int) (p' : RngPos)
    (h : randintE g p a b = .ok (v, p')) : a ≤ v ∧ v ≤ b := by
  unfold randintE at h
  split at h
  · exact absurd h (by simp)
  · rename_i hba
    injection h with h1
    injection h1 with hv hp
    have h0 : (0 : Int) < b - a + 1 := by omega
    have hm1 : 0 ≤ ((g.n p.ni : Int)) % (b - a + 1) := Int.emod_nonneg _ (by omega)
    have hm2 : ((g.n p.ni : Int)) % (b - a + 1) < b - a + 1 := Int.emod_lt_of_pos _ h0
    omega

/-- randint on a nonempty interval never raises. -/
theorem randintE_ok_of_le (g : Rng) (p : RngPos) (a b : Int) (h : a ≤ b) :
    randintE g p a b =
      .ok (a + (g.n p.ni : Int) % (b - a + 1), { p with ni := p.ni + 1 }) := by
  unfold randintE
  rw [if_neg (by omega)]

/-! ## Claim C1 -/

/-- Claim C1: the spec says that when num_pipes exceeds 10 at the start of
PipesScreensaver.draw, the draw clears the surface, resets the counter and
writes the pipe color with no error escaping. The code instead raises
AttributeError on that path, because line 170 looks up the undefined
attribute self._reset_buffer (the inherited method is reset_buffer): the
draw returns an error and performs none of the described actions. -/
theorem PipesScreensaver.draw_overflow_attributeError (g : Rng) (s : PipesScreensaver)
    (prev curr : Buffer) (p : RngPos) (h : 10 < s.num_pipes) :
    PipesScreensaver.draw g s prev curr p = .error .attributeError := by
  unfold PipesScreensaver.draw
  rw [if_pos h]

/-- Witness for claim C1 at a concrete input. -/
theorem PipesScreensaver.draw_overflow_attributeError_witness :
    (10 : Int) < pipesOverflowState.num_pipes ∧
      PipesScreensaver.draw ⟨fun _ => 1/2, fun _ => 0⟩ pipesOverflowState
        (bufFill 0) (bufFill 0) ⟨0, 0⟩ = .error .attributeError :=
  ⟨by decide,
    PipesScreensaver.draw_overflow_attributeError _ pipesOverflowState _ _ _ (by decide)⟩

/-! ## Claim C9 -/

/-- A successful pass through the cycle rejection loop returns an index
different from the current one. -/
theorem cycleLoop_ok_ne (g : Rng) (n : Nat) (current : Int) :
    ∀ (fuel : Nat) (p : RngPos) (j : Int) (p' : RngPos),
      cycleLoop g n current fuel p = .ok (j, p') → j ≠ current := by
  intro fuel
  induction fuel with
  | zero =>
    intro p j p' h
    exact absurd h (by simp [cycleLoop])
  | succ k ih =>
    intro p j p' h
    unfold cycleLoop at h
    rcases hr : randintE g p 0 ((n : Int) - 1) with e | ⟨j1, p1⟩ <;>
      rw [hr] at h <;> dsimp only at h
    · simp at h
    · by_cases hj : j1 ≠ current
      · rw [if_pos hj] at h
        injection h with h1
        injection h1 with h2 h3
        exact h2 ▸ hj
      · rw [if_neg hj] at h
        exact ih p1 j p' h

/-- Claim C9: with at least two registered screensavers, whenever cycle
returns, the newly active index differs from the previously active index;
the roster is unchanged, so this holds across any number of successive
cycle calls. -/
theorem ScreensaverManager.cycle_changes_index (g : Rng) (s : ScreensaverManager)
    (p : RngPos) (fuel : Nat) (s' : ScreensaverManager) (p' : RngPos)
    (hn : 2 ≤ s.screensavers.length)
    (h : ScreensaverManager.cycle g s p fuel = .ok (s', p')) :
    s'._current_screensaver ≠ s._current_screensaver ∧
      s'.screensavers = s.screensavers := by
  unfold ScreensaverManager.cycle at h
  rw [if_neg (by omega), if_neg (by omega)] at h
  rcases hr : cycleLoop g s.screensavers.length s._current_screensaver fuel p
    with e | ⟨j, p1⟩ <;> rw [hr] at h
  · simp at h
  · injection h with h1
    injection h1 with hs hp
    subst hs
    exact ⟨cycleLoop_ok_ne g _ _ fuel p j p1 hr, rfl⟩

/-- Witness for claim C9 at a concrete input. -/
theorem ScreensaverManager.cycle_changes_index_witness :
    2 ≤ managerBoth.screensavers.length ∧
    ∃ s' p', ScreensaverManager.cycle ⟨fun _ => 1/2, fun _ => 1⟩ managerBoth ⟨0, 0⟩ 3 =
        .ok (s', p') ∧ s'._current_screensaver ≠ managerBoth._current_screensaver :=
  ⟨by decide, ⟨[.matrixTag, .pipesTag], 1⟩, ⟨0, 1⟩, rfl,
    (ScreensaverManager.cycle_changes_index ⟨fun _ => 1/2, fun _ => 1⟩ managerBoth
      ⟨0, 0⟩ 3 ⟨[.matrixTag, .pipesTag], 1⟩ ⟨0, 1⟩ (by decide) rfl).1⟩

/-! ## Claims C2 and C5 -/

/-- Claim C2: the spec says the history has FIFO eviction, dropping the
oldest entry on overflow. The code executes recent_rows.pop(), which
removes the LAST element, so the just-appended row is the one dropped:
with the history [0..9] full and spawn row 10 chosen, the history after
draw is again [0..9] (10 was dropped, the oldest entry 0 was kept); FIFO
eviction would have produced [1..9, 10]. -/
theorem MatrixScreensaver.draw_pop_drops_newest :
    (∃ p1, pickRow ⟨fun _ => 1/2, fun _ => 10⟩ 12 recentTen 5 ⟨0, 0⟩ = .ok (10, p1)) ∧
    (∃ b p', MatrixScreensaver.draw ⟨fun _ => 1/2, fun _ => 10⟩ 1 12 recentTen
        (bufFill 0) ⟨0, 0⟩ 5 = .ok (b, recentTen, p')) :=
  ⟨⟨⟨0, 1⟩, rfl⟩, ⟨_, _, rfl⟩⟩

/-- Claim C5: the spec says that with height at least 11 no two of the 10
most recent spawn choices are equal. Starting from the reset state, ten
draws with height 11 fill the history with rows 0..9; because the eleventh
draw pops the row it just appended, the history is again [0..9] afterwards,
and the spawn choices of the eleventh and twelfth draws are both row 10:
two equal choices among the most recent 10 spawns. (The other half of the
claim, that recent_rows never exceeds length 10, does hold.) -/
theorem MatrixScreensaver.spawn_repeats_after_history_full :
    (∃ b p, matrixRun rngC5 1 11 5 10 [] (bufFill 0) ⟨0, 0⟩ = .ok (recentTen, b, p)) ∧
    (∃ p1, pickRow rngC5 11 recentTen 5 ⟨10, 10⟩ = .ok (10, p1)) ∧
    (∃ b2 p2, MatrixScreensaver.draw rngC5 1 11 recentTen (bufFill 0) ⟨10, 10⟩ 5 =
        .ok (b2, recentTen, p2)) ∧
    (∃ p3, pickRow rngC5 11 recentTen 5 ⟨11, 11⟩ = .ok (10, p3)) :=
  ⟨⟨_, _, rfl⟩, ⟨⟨10, 11⟩, rfl⟩, ⟨_, _, rfl⟩, ⟨⟨11, 12⟩, rfl⟩⟩

/-! ## Claim C10 -/

/-- Claim C10: for a valid viewport (width > 0 and height > 0), new_pipe
succeeds for every random oracle exactly when width and height are both at
least 3; otherwise the randint(1, extent - 2) call in the start-position
branch of some direction raises ValueError on an empty range. -/
theorem PipesScreensaver.new_pipe_total_iff (s : PipesScreensaver)
    (hv : s.is_viewport_valid) :
    (∀ (g : Rng) (p : RngPos), ∃ r, PipesScreensaver.new_pipe g s p = .ok r) ↔
      (3 ≤ s.width ∧ 3 ≤ s.height) := by
  obtain ⟨hw0, hh0⟩ := hv
  constructor
  · intro htot
    constructor
    · by_contra hw
      push_neg at hw
      obtain ⟨r, hr⟩ := htot rngDir1 ⟨0, 0⟩
      have hcalc : PipesScreensaver.new_pipe rngDir1 s ⟨0, 0⟩ = .error .valueError := by
        unfold PipesScreensaver.new_pipe
        rw [show ((PipesScreensaver.colors.length : Int) - 1) = 8 from rfl]
        rw [show randintE rngDir1 ⟨0, 0⟩ 1 8 = .ok (1, ⟨0, 1⟩) from rfl]
        dsimp only
        rw [show randintE rngDir1 ⟨0, 1⟩ 0 3 = .ok (1, ⟨0, 2⟩) from rfl]
        dsimp only
        rw [if_neg (by decide), if_pos rfl]
        rw [show randintE rngDir1 ⟨0, 2⟩ 1 (s.width - 2) = .error .valueError from by
          unfold randintE; rw [if_pos (by omega)]]
      rw [hcalc] at hr
      exact Except.noConfusion hr
    · by_contra hh
      push_neg at hh
      obtain ⟨r, hr⟩ := htot rngDir0 ⟨0, 0⟩
      have hcalc : PipesScreensaver.new_pipe rngDir0 s ⟨0, 0⟩ = .error .valueError := by
        unfold PipesScreensaver.new_pipe
        rw [show ((PipesScreensaver.colors.length : Int) - 1) = 8 from rfl]
        rw [show randintE rngDir0 ⟨0, 0⟩ 1 8 = .ok (1, ⟨0, 1⟩) from rfl]
        dsimp only
        rw [show randintE rngDir0 ⟨0, 1⟩ 0 3 = .ok (0, ⟨0, 2⟩) from rfl]
        dsimp only
        rw [if_pos rfl]
        rw [show randintE rngDir0 ⟨0, 2⟩ 1 (s.height - 2) = .error .valueError from by
          unfold randintE; rw [if_pos (by omega)]]
      rw [hcalc] at hr
      exact Except.noConfusion hr
  · rintro ⟨hw, hh⟩ g p
    unfold PipesScreensaver.new_pipe
    rw [show ((PipesScreensaver.colors.length : Int) - 1) = 8 from rfl]
    rcases h1 : randintE g p 1 8 with e | ⟨c, p1⟩
    · rw [randintE_ok_of_le g p 1 8 (by norm_num)] at h1
      cases h1
    · dsimp only
      rcases h2 : randintE g p1 0 3 with e | ⟨d, p2⟩
      · rw [randintE_ok_of_le g p1 0 3 (by norm_num)] at h2
        cases h2
      · dsimp only
        obtain ⟨hd0, hd3⟩ := randintE_ok_bounds g p1 0 3 d p2 h2
        have hcases : d = 0 ∨ d = 1 ∨ d = 2 ∨ d = 3 := by omega
        rcases hcases with h | h | h | h <;> subst h
        · rw [if_pos rfl]
          rcases h3 : randintE g p2 1 (s.height - 2) with e | ⟨yy, p3⟩
          · rw [randintE_ok_of_le g p2 1 (s.height - 2) (by omega)] at h3
            cases h3
          · exact ⟨_, rfl⟩
        · rw [if_neg (by decide), if_pos rfl]
          rcases h3 : randintE g p2 1 (s.width - 2) with e | ⟨xx, p3⟩
          · rw [randintE_ok_of_le g p2 1 (s.width - 2) (by omega)] at h3
            cases h3
          · exact ⟨_, rfl⟩
        · rw [if_neg (by decide), if_neg (by decide), if_pos rfl]
          rcases h3 : randintE g p2 1 (s.height - 2) with e | ⟨yy, p3⟩
          · rw [randintE_ok_of_le g p2 1 (s.height - 2) (by omega)] at h3
            cases h3
          · exact ⟨_, rfl⟩
        · rw [if_neg (by decide), if_neg (by decide), if_neg (by decide), if_pos rfl]
          rcases h3 : randintE g p2 1 (s.width - 2) with e | ⟨xx, p3⟩
          · rw [randintE_ok_of_le g p2 1 (s.width - 2) (by omega)] at h3
            cases h3
          · exact ⟨_, rfl⟩

/-- Witness for claim C10 at a concrete input. -/
theorem PipesScreensaver.new_pipe_total_iff_witness :
    pipesThree.is_viewport_valid ∧
      ((∀ (g : Rng) (p : RngPos), ∃ r, PipesScreensaver.new_pipe g pipesThree p = .ok r) ↔
        (3 ≤ pipesThree.width ∧ 3 ≤ pipesThree.height)) :=
  ⟨by decide, PipesScreensaver.new_pipe_total_iff pipesThree (by decide)⟩

/-! ## Pipes invariant lemmas -/

/-- A successful new_pipe leaves the viewport unchanged, increments
num_pipes, and (for a viewport at least 3 wide and 3 tall) places the new
position inside the viewport. -/
theorem PipesScreensaver.new_pipe_ok_inv (g : Rng) (s : PipesScreensaver) (p : RngPos)
    (s' : PipesScreensaver) (p' : RngPos)
    (hw : 3 ≤ s.width) (hh : 3 ≤ s.height)
    (h : PipesScreensaver.new_pipe g s p = .ok (s', p')) :
    s'.posInBounds ∧ s'.width = s.width ∧ s'.height = s.height ∧
      s'.num_pipes = s.num_pipes + 1 := by
  unfold PipesScreensaver.new_pipe at h
  dsimp only at h
  split at h
  · exact Except.noConfusion h
  · rename_i c p1 heq1
    split at h
    · exact Except.noConfusion h
    · rename_i d p2 heq2
      obtain ⟨hd0, hd3⟩ := randintE_ok_bounds g p1 0 3 d p2 heq2
      split at h
      · split at h
        · exact Except.noConfusion h
        · rename_i yy p3 heq3
          obtain ⟨hy1, hy2⟩ := randintE_ok_bounds g p2 1 (s.height - 2) yy p3 heq3
          injection h with h1
          injection h1 with hs hp
          subst hs
          refine ⟨?_, rfl, rfl, rfl⟩
          unfold PipesScreensaver.posInBounds
          dsimp only
          omega
      · split at h
        · split at h
          · exact Except.noConfusion h
          · rename_i xx p3 heq3
            obtain ⟨hx1, hx2⟩ := randintE_ok_bounds g p2 1 (s.width - 2) xx p3 heq3
            injection h with h1
            injection h1 with hs hp
            subst hs
            refine ⟨?_, rfl, rfl, rfl⟩
            unfold PipesScreensaver.posInBounds
            dsimp only
            omega
        · split at h
          · split at h
            · exact Except.noConfusion h
            · rename_i yy p3 heq3
              obtain ⟨hy1, hy2⟩ := randintE_ok_bounds g p2 1 (s.height - 2) yy p3 heq3
              injection h with h1
              injection h1 with hs hp
              subst hs
              refine ⟨?_, rfl, rfl, rfl⟩
              unfold PipesScreensaver.posInBounds
              dsimp only
              omega
          · split at h
            · split at h
              · exact Except.noConfusion h
              · rename_i xx p3 heq3
                obtain ⟨hx1, hx2⟩ := randintE_ok_bounds g p2 1 (s.width - 2) xx p3 heq3
                injection h with h1
                injection h1 with hs hp
                subst hs
                refine ⟨?_, rfl, rfl, rfl⟩
                unfold PipesScreensaver.posInBounds
                dsimp only
                omega
            · rename_i hne0 hne1 hne2 hne3
              omega

/-- Membership in the range list. -/
theorem ascList_mem (n : Nat) (y : Int) : y ∈ ascList n ↔ 0 ≤ y ∧ y < (n : Int) := by
  induction n with
  | zero => simp [ascList]
  | succ k ih =>
    simp only [ascList, List.mem_append, List.mem_singleton, ih]
    omega

/-- A fold of row writes does not change a cell that none of the writes
target. -/
theorem copyRow_foldl_ne (prev : Buffer) (y : Int) :
    ∀ (xs : List Int) (b : Buffer) (q : Int × Int), (∀ x ∈ xs, q ≠ (x, y)) →
      (xs.foldl (fun b2 x => bufSet b2 (x, y) (prev (x, y))) b) q = b q := by
  intro xs
  induction xs with
  | nil => intro b q _; rfl
  | cons a l ih =>
    intro b q hq
    simp only [List.foldl_cons]
    rw [ih _ q fun x hx => hq x (List.mem_cons_of_mem a hx)]
    unfold bufSet
    rw [if_neg (hq a (List.mem_cons_self a l))]

/-- Row-by-row form of the copy loop: a fold of row folds does not change
a cell none of the writes target. -/
theorem copyLoop_fold_ne (width : Int) (prev : Buffer) (q : Int × Int) :
    ∀ (ys : List Int) (b : Buffer),
      (∀ y ∈ ys, ∀ x ∈ ascList width.toNat, q ≠ (x, y)) →
      (ys.foldl (fun b2 y => (ascList width.toNat).foldl
        (fun b3 x => bufSet b3 (x, y) (prev (x, y))) b2) b) q = b q := by
  intro ys
  induction ys with
  | nil =>
    intro b _
    rfl
  | cons a l ih =>
    intro b hq
    simp only [List.foldl_cons]
    rw [ih _ fun y hym => hq y (List.mem_cons_of_mem a hym)]
    exact copyRow_foldl_ne prev a _ _ q (hq a (List.mem_cons_self a l))

/-- The prev-to-curr copy loop of PipesScreensaver.draw leaves every cell
outside the viewport unchanged. -/
theorem copyLoop_outside (width height : Int) (prev curr : Buffer) (q : Int × Int)
    (hq : q.1 < 0 ∨ width ≤ q.1 ∨ q.2 < 0 ∨ height ≤ q.2) :
    copyLoop width height prev curr q = curr q := by
  unfold copyLoop
  apply copyLoop_fold_ne
  intro y hym x hxm hqe
  have h1 := (ascList_mem width.toNat x).1 hxm
  have h2 := (ascList_mem height.toNat y).1 hym
  rw [hqe] at hq
  dsimp at hq
  omega

/-- The single color write of PipesScreensaver.draw does not touch any cell
outside the viewport when the written position is in bounds. -/
theorem pipes_curr2_outside (s : PipesScreensaver) (prev curr : Buffer)
    (hpos : s.posInBounds) (q : Int × Int)
    (hq : q.1 < 0 ∨ s.width ≤ q.1 ∨ q.2 < 0 ∨ s.height ≤ q.2) :
    bufSet (copyLoop s.width s.height prev curr) s.position s.color q = curr q := by
  obtain ⟨h1, h2, h3, h4⟩ := hpos
  have hne : q ≠ s.position := by
    intro he
    rw [he] at hq
    omega
  simp only [bufSet]
  rw [if_neg hne]
  exact copyLoop_outside s.width s.height prev curr q hq

/-! ## Claim C8 -/

/-- Claim C8: for a viewport at least 3 wide and 3 tall and a current
position inside the viewport, a successful PipesScreensaver.draw keeps the
viewport, leaves the resulting position inside the viewport (an advanced
position that left the viewport is replaced by new_pipe within the same
call), and never writes any cell outside the viewport: the only writes are
the viewport copy loop and the single color write at the in-bounds
position. Together with new_pipe establishing the in-bounds position at
reset, every write any draw performs is in bounds. -/
theorem PipesScreensaver.draw_writes_in_bounds (g : Rng) (s : PipesScreensaver)
    (prev curr : Buffer) (p : RngPos) (s' : PipesScreensaver) (b' : Buffer) (p' : RngPos)
    (hw : 3 ≤ s.width) (hh : 3 ≤ s.height) (hpos : s.posInBounds)
    (hdraw : PipesScreensaver.draw g s prev curr p = .ok (s', b', p')) :
    s'.posInBounds ∧ s'.width = s.width ∧ s'.height = s.height ∧
      ∀ q : Int × Int, q.1 < 0 ∨ s.width ≤ q.1 ∨ q.2 < 0 ∨ s.height ≤ q.2 →
        b' q = curr q := by
  unfold PipesScreensaver.draw at hdraw
  split at hdraw
  · exact Except.noConfusion hdraw
  · dsimp only [randFloat] at hdraw
    split at hdraw
    · rename_i hc
      split at hdraw
      · exact Except.noConfusion hdraw
      · rename_i s4 p4 heq
        injection hdraw with h1
        injection h1 with hs h2
        injection h2 with hb hp
        subst hs
        subst hb
        obtain ⟨hin, hwq, hhq, hnp⟩ :=
          PipesScreensaver.new_pipe_ok_inv g _ _ s4 p4 (by exact hw) (by exact hh) heq
        exact ⟨hin, hwq, hhq, fun q hq => pipes_curr2_outside s prev curr hpos q hq⟩
    · rename_i hc
      injection hdraw with h1
      injection h1 with hs h2
      injection h2 with hb hp
      subst hs
      subst hb
      push_neg at hc
      refine ⟨?_, rfl, rfl, fun q hq => pipes_curr2_outside s prev curr hpos q hq⟩
      unfold PipesScreensaver.posInBounds
      dsimp only
      omega

/-- Witness for claim C8 at a concrete input. -/
theorem PipesScreensaver.draw_writes_in_bounds_witness :
    (3 : Int) ≤ pipesMid.width ∧ (3 : Int) ≤ pipesMid.height ∧ pipesMid.posInBounds ∧
    PipesScreensaver.draw ⟨fun _ => 1/2, fun _ => 0⟩ pipesMid (bufFill 1) (bufFill 0)
      ⟨0, 0⟩ = .ok (pipesMidAfter,
        bufSet (copyLoop 4 3 (bufFill 1) (bufFill 0)) (1, 1) 2, ⟨1, 0⟩) ∧
    (pipesMidAfter.posInBounds ∧ pipesMidAfter.width = pipesMid.width ∧
      pipesMidAfter.height = pipesMid.height ∧
      ∀ q : Int × Int, q.1 < 0 ∨ pipesMid.width ≤ q.1 ∨ q.2 < 0 ∨ pipesMid.height ≤ q.2 →
        bufSet (copyLoop 4 3 (bufFill 1) (bufFill 0)) (1, 1) 2 q = bufFill 0 q) :=
  ⟨by decide, by decide, by decide, by with_unfolding_all rfl,
    PipesScreensaver.draw_writes_in_bounds ⟨fun _ => 1/2, fun _ => 0⟩ pipesMid
      (bufFill 1) (bufFill 0) ⟨0, 0⟩ pipesMidAfter
      (bufSet (copyLoop 4 3 (bufFill 1) (bufFill 0)) (1, 1) 2) ⟨1, 0⟩
      (by decide) (by decide) (by decide) (by with_unfolding_all rfl)⟩

/-! ## Claim C4 -/

/-- Counterexample to claim C4 as stated: the advanced position (4, 1) is
off-canvas, yet it does NOT persist until the next frame: the very same
draw call already invoked new_pipe, so after draw returns the position is
(0, 1), not (4, 1), and num_pipes is already incremented. There is no
next-frame pre-check in the code; the bounds check runs at the end of the
same draw call. -/
theorem PipesScreensaver.draw_no_offcanvas_persistence :
    advancePos pipesAtEdge.direction pipesAtEdge.position = (4, 1) ∧
    pipesAtEdge.width ≤ (4 : Int) ∧
    (∃ b p', PipesScreensaver.draw ⟨fun _ => 1/2, fun _ => 0⟩ pipesAtEdge
      (bufFill 0) (bufFill 0) ⟨0, 0⟩ = .ok (pipesAfterExit, b, p')) ∧
    pipesAfterExit.position ≠ (4, 1) ∧
    pipesAfterExit.num_pipes = pipesAtEdge.num_pipes + 1 :=
  ⟨rfl, by decide, ⟨_, _, rfl⟩, by decide, by decide⟩

/-- Claim C4 amended: when the advance moves the position off-canvas, the
out-of-bounds check fires at the end of the SAME draw call (after that
call has written the old in-bounds position), so new_pipe takes effect
within that call: on return num_pipes is incremented and the position is
already a fresh in-bounds edge position. The off-canvas position never
persists into the next frame, and the off-canvas cell is never written
because the write uses the pre-advance position. -/
theorem PipesScreensaver.draw_oob_newpipe_same_call (g : Rng) (s : PipesScreensaver)
    (prev curr : Buffer) (p : RngPos) (s' : PipesScreensaver) (b' : Buffer) (p' : RngPos)
    (hw : 3 ≤ s.width) (hh : 3 ≤ s.height)
    (hoob : (advancePos s.direction s.position).1 < 0 ∨
      s.width ≤ (advancePos s.direction s.position).1 ∨
      (advancePos s.direction s.position).2 < 0 ∨
      s.height ≤ (advancePos s.direction s.position).2)
    (hdraw : PipesScreensaver.draw g s prev curr p = .ok (s', b', p')) :
    s'.num_pipes = s.num_pipes + 1 ∧ s'.posInBounds := by
  unfold PipesScreensaver.draw at hdraw
  split at hdraw
  · exact Except.noConfusion hdraw
  · dsimp only [randFloat] at hdraw
    split at hdraw
    · split at hdraw
      · exact Except.noConfusion hdraw
      · rename_i s4 p4 heq
        injection hdraw with h1
        injection h1 with hs h2
        subst hs
        obtain ⟨hin, hwq, hhq, hnp⟩ :=
          PipesScreensaver.new_pipe_ok_inv g _ _ s4 p4 (by exact hw) (by exact hh) heq
        exact ⟨hnp, hin⟩
    · rename_i hc
      exact absurd hoob hc

/-- Witness for the amended claim C4 at a concrete input. -/
theorem PipesScreensaver.draw_oob_newpipe_same_call_witness :
    (3 : Int) ≤ pipesAtEdge.width ∧ (3 : Int) ≤ pipesAtEdge.height ∧
    ((advancePos pipesAtEdge.direction pipesAtEdge.position).1 < 0 ∨
      pipesAtEdge.width ≤ (advancePos pipesAtEdge.direction pipesAtEdge.position).1 ∨
      (advancePos pipesAtEdge.direction pipesAtEdge.position).2 < 0 ∨
      pipesAtEdge.height ≤ (advancePos pipesAtEdge.direction pipesAtEdge.position).2) ∧
    PipesScreensaver.draw ⟨fun _ => 1/2, fun _ => 0⟩ pipesAtEdge (bufFill 0) (bufFill 0)
      ⟨0, 0⟩ = .ok (pipesAfterExit,
        bufSet (copyLoop 4 3 (bufFill 0) (bufFill 0)) (3, 1) 2, ⟨1, 3⟩) ∧
    (pipesAfterExit.num_pipes = pipesAtEdge.num_pipes + 1 ∧ pipesAfterExit.posInBounds) :=
  ⟨by decide, by decide, by decide, by with_unfolding_all rfl,
    PipesScreensaver.draw_oob_newpipe_same_call ⟨fun _ => 1/2, fun _ => 0⟩ pipesAtEdge
      (bufFill 0) (bufFill 0) ⟨0, 0⟩ pipesAfterExit
      (bufSet (copyLoop 4 3 (bufFill 0) (bufFill 0)) (3, 1) 2) ⟨1, 3⟩
      (by decide) (by decide) (by decide) (by with_unfolding_all rfl)⟩

/-! ## Matrix shift/decay characterization -/

/-- A bufSet does not change other cells. -/
theorem bufSet_ne (b : Buffer) (q q' : Int × Int) (v : Int) (h : q' ≠ q) :
    bufSet b q v q' = b q' := if_neg h

/-- One decay step only writes cells of its own row. -/
theorem decayStep_ne_row (g : Rng) (prev : Buffer) (y : Int) (acc : Buffer × RngPos)
    (x : Int) (q : Int × Int) (hq : q.2 ≠ y) :
    (decayStep g prev y acc x).1 q = acc.1 q := by
  have hne1 : q ≠ (x + 1, y) := fun he => hq (by rw [he])
  have hne2 : q ≠ (x, y) := fun he => hq (by rw [he])
  unfold decayStep
  dsimp only [randFloat]
  split <;> dsimp only <;>
    rw [bufSet_ne _ _ _ _ hne2, bufSet_ne _ _ _ _ hne1]

/-- The inner column fold only writes cells of its own row. -/
theorem descFold_ne_row (g : Rng) (prev : Buffer) (y : Int) :
    ∀ (n : Nat) (acc : Buffer × RngPos) (q : Int × Int), q.2 ≠ y →
      ((descList n).foldl (decayStep g prev y) acc).1 q = acc.1 q := by
  intro n
  induction n with
  | zero =>
    intro acc q hq
    rfl
  | succ k ih =>
    intro acc q hq
    simp only [descList, List.foldl_cons]
    rw [ih _ q hq]
    exact decayStep_ne_row g prev y acc _ q hq

/-- The inner column fold over columns n-1, ..., 0 does not write any cell
of its row at a column above n or below 0. -/
theorem descFold_high (g : Rng) (prev : Buffer) (y : Int) :
    ∀ (n : Nat) (acc : Buffer × RngPos) (c : Int), ((n : Int) < c ∨ c < 0) →
      ((descList n).foldl (decayStep g prev y) acc).1 (c, y) = acc.1 (c, y) := by
  intro n
  induction n with
  | zero =>
    intro acc c _
    rfl
  | succ k ih =>
    intro acc c hc
    simp only [descList, List.foldl_cons]
    rw [ih _ c (by omega)]
    have hne1 : ((c : Int), y) ≠ ((k : Int) + 1, y) := by
      intro he
      have : (c : Int) = (k : Int) + 1 := congrArg Prod.fst he
      omega
    have hne2 : ((c : Int), y) ≠ ((k : Int), y) := by
      intro he
      have : (c : Int) = (k : Int) := congrArg Prod.fst he
      omega
    unfold decayStep
    dsimp only [randFloat]
    split <;> dsimp only <;>
      rw [bufSet_ne _ _ _ _ hne2, bufSet_ne _ _ _ _ hne1]

/-- After the inner column fold, every column c with 1 <= c <= n holds the
shifted value prev (c - 1, y): the shift write of iteration c - 1 is the
last write to column c, overwriting the decay write of iteration c. -/
theorem descFold_shift (g : Rng) (prev : Buffer) (y : Int) :
    ∀ (n : Nat) (acc : Buffer × RngPos) (c : Int), 1 ≤ c → c ≤ (n : Int) →
      ((descList n).foldl (decayStep g prev y) acc).1 (c, y) = prev (c - 1, y) := by
  intro n
  induction n with
  | zero =>
    intro acc c h1 h2
    exact absurd h2 (by omega)
  | succ k ih =>
    intro acc c h1 h2
    simp only [descList, List.foldl_cons]
    by_cases hck : c ≤ (k : Int)
    · exact ih _ c h1 hck
    · have hc : c = (k : Int) + 1 := by omega
      rw [descFold_high g prev y k _ c (by omega)]
      subst hc
      unfold decayStep
      dsimp only [randFloat]
      have hne : ((k : Int) + 1, y) ≠ ((k : Int), y) := by
        intro he
        have : (k : Int) + 1 = (k : Int) := congrArg Prod.fst he
        omega
      have harith : (k : Int) + 1 - 1 = (k : Int) := by omega
      split <;> dsimp only <;>
        (rw [bufSet_ne _ _ _ _ hne]; unfold bufSet; rw [if_pos rfl, harith])

/-- After a nonempty inner column fold, column 0 of the row holds a decay
of prev (0, y): 12 when prev holds 15, else the value or its clamped
decrement. -/
theorem descFold_col0 (g : Rng) (prev : Buffer) (y : Int) :
    ∀ (n : Nat) (acc : Buffer × RngPos), 1 ≤ n →
      decayRel (prev (0, y)) (((descList n).foldl (decayStep g prev y) acc).1 (0, y)) := by
  intro n
  induction n with
  | zero =>
    intro acc h
    exact absurd h (by omega)
  | succ k ih =>
    intro acc hk
    by_cases hk0 : 1 ≤ k
    · simp only [descList, List.foldl_cons]
      exact ih _ hk0
    · have hk' : k = 0 := by omega
      subst hk'
      simp only [descList, List.foldl_cons, List.foldl_nil, Nat.cast_zero]
      unfold decayStep
      dsimp only [randFloat]
      split
      · rename_i hv
        dsimp only
        unfold bufSet
        rw [if_pos rfl]
        unfold decayRel
        rw [if_pos hv]
      · rename_i hv
        dsimp only
        unfold bufSet
        rw [if_pos rfl]
        unfold decayRel fadeValue
        rw [if_neg hv]
        split
        · exact Or.inl rfl
        · exact Or.inr rfl

/-- The row fold does not touch rows outside its list. -/
theorem rowsFold_ne (g : Rng) (width : Int) (prev : Buffer) :
    ∀ (ys : List Int) (acc : Buffer × RngPos) (q : Int × Int), q.2 ∉ ys →
      ((ys.foldl (fun a y2 => shiftRow g width prev y2 a) acc).1) q = acc.1 q := by
  intro ys
  induction ys with
  | nil =>
    intro acc q _
    rfl
  | cons a l ih =>
    intro acc q hq
    simp only [List.foldl_cons]
    rw [ih _ q (fun hm => hq (List.mem_cons_of_mem a hm))]
    exact descFold_ne_row g prev a _ _ q
      (fun he => hq (by rw [he]; exact List.mem_cons_self a l))

/-- Shift characterization at the row-fold level. -/
theorem rowsFold_shift (g : Rng) (width : Int) (prev : Buffer) (c y : Int)
    (h1 : 1 ≤ c) (h2 : c ≤ width - 1) :
    ∀ (ys : List Int) (acc : Buffer × RngPos), y ∈ ys →
      ((ys.foldl (fun a y2 => shiftRow g width prev y2 a) acc).1) (c, y) =
        prev (c - 1, y) := by
  intro ys
  induction ys with
  | nil =>
    intro acc h
    exact absurd h (List.not_mem_nil y)
  | cons a l ih =>
    intro acc hy
    simp only [List.foldl_cons]
    by_cases hyl : y ∈ l
    · exact ih _ hyl
    · have hya : y = a := by
        rcases List.mem_cons.mp hy with h | h
        · exact h
        · exact absurd h hyl
      subst hya
      rw [rowsFold_ne g width prev l _ (c, y) hyl]
      exact descFold_shift g prev y (width - 1).toNat _ c h1 (by omega)

/-- Column-0 decay characterization at the row-fold level. -/
theorem rowsFold_col0 (g : Rng) (width : Int) (prev : Buffer) (y : Int) (hw : 2 ≤ width) :
    ∀ (ys : List Int) (acc : Buffer × RngPos), y ∈ ys →
      decayRel (prev (0, y))
        (((ys.foldl (fun a y2 => shiftRow g width prev y2 a) acc).1) (0, y)) := by
  intro ys
  induction ys with
  | nil =>
    intro acc h
    exact absurd h (List.not_mem_nil y)
  | cons a l ih =>
    intro acc hy
    simp only [List.foldl_cons]
    by_cases hyl : y ∈ l
    · exact ih _ hyl
    · have hya : y = a := by
        rcases List.mem_cons.mp hy with h | h
        · exact h
        · exact absurd h hyl
      subst hya
      rw [rowsFold_ne g width prev l _ (0, y) hyl]
      exact descFold_col0 g prev y (width - 1).toNat _ (by omega)

/-- Master characterization of a successful MatrixScreensaver.draw: every
cell (x+1, y) holds the shifted value prev (x, y) exactly (the spawn write
only touches column 0), and column 0 holds either a decay of prev (0, y)
or the spawn value 15. -/
theorem MatrixScreensaver.draw_ok_cells (g : Rng) (width height : Int)
    (recent_rows : List Int) (prev : Buffer) (p : RngPos) (fuel : Nat)
    (curr : Buffer) (rec2 : List Int) (p' : RngPos)
    (hE : MatrixScreensaver.draw g width height recent_rows prev p fuel =
      .ok (curr, rec2, p')) :
    (∀ x y : Int, 0 ≤ x → x ≤ width - 2 → 0 ≤ y → y < height →
      curr (x + 1, y) = prev (x, y)) ∧
    (∀ y : Int, 0 ≤ y → y < height → 2 ≤ width →
      decayRel (prev (0, y)) (curr (0, y)) ∨ curr (0, y) = 15) := by
  unfold MatrixScreensaver.draw at hE
  unfold shiftLoop at hE
  dsimp only at hE
  split at hE
  · exact Except.noConfusion hE
  · rename_i y0 p1 heq
    dsimp only [randFloat] at hE
    injection hE with h1
    injection h1 with hc h2
    have hcol : ∀ q : Int × Int, q.1 ≠ 0 → curr q =
        ((ascList height.toNat).foldl (fun a y2 => shiftRow g width prev y2 a)
          (bufFill 0, p)).1 q := by
      intro q hq
      rw [← hc]
      split
      · exact bufSet_ne _ _ _ _ (fun he => hq (by rw [he]))
      · rfl
    have hcol0 : ∀ yy : Int, curr (0, yy) =
        ((ascList height.toNat).foldl (fun a y2 => shiftRow g width prev y2 a)
          (bufFill 0, p)).1 (0, yy) ∨ curr (0, yy) = 15 := by
      intro yy
      rw [← hc]
      split
      · by_cases hq : ((0 : Int), yy) = ((0 : Int), y0)
        · right
          unfold bufSet
          rw [if_pos hq]
        · left
          exact bufSet_ne _ _ _ _ hq
      · left
        rfl
    constructor
    · intro x y hx hxw hy hyh
      rw [hcol (x + 1, y) (by show x + 1 ≠ 0; omega)]
      rw [rowsFold_shift g width prev (x + 1) y (by omega) (by omega)
        (ascList height.toNat) (bufFill 0, p)
        ((ascList_mem height.toNat y).2 (by omega))]
      have harith : x + 1 - 1 = x := by omega
      rw [harith]
    · intro y hy hyh hw2
      rcases hcol0 y with h | h
      · left
        rw [h]
        exact rowsFold_col0 g width prev y hw2 (ascList height.toNat) (bufFill 0, p)
          ((ascList_mem height.toNat y).2 (by omega))
      · right
        exact h

/-! ## Claim C6 -/

/-- Counterexample to claim C6 as stated: prev (1, 0) = 15, so the claim
asserts curr (1, 0) = 12; but the shift write of the following loop
iteration overwrites the decay write, leaving curr (1, 0) = prev (0, 0)
= 0. -/
theorem MatrixScreensaver.draw_inner_decay_counterexample :
    prevC6 (1, 0) = 15 ∧
    drawOk (MatrixScreensaver.draw rngHalfZero 3 1 [] prevC6 ⟨0, 0⟩ 5) = true ∧
    okBuf (MatrixScreensaver.draw rngHalfZero 3 1 [] prevC6 ⟨0, 0⟩ 5) (1, 0) = 0 := by
  refine ⟨rfl, ?_, ?_⟩ <;> with_unfolding_all rfl

/-- Claim C6 amended: the shifted value is exact, curr (x+1, y) =
prev (x, y) for every x in [0, width - 2]; but the decay clauses hold only
at column 0 (for x at least 1, the decay write to curr (x, y) is
immediately overwritten by the next shift write, so curr (x, y) =
prev (x - 1, y)); at column 0, unless the spawn write put 15 there, a
prev value of 15 yields exactly 12 and any other value stays or drops by
one, clamped at 0. -/
theorem MatrixScreensaver.draw_shift_exact_decay_col0_only (g : Rng)
    (width height : Int) (recent_rows : List Int) (prev : Buffer) (p : RngPos)
    (fuel : Nat) (curr : Buffer) (rec2 : List Int) (p' : RngPos)
    (hE : MatrixScreensaver.draw g width height recent_rows prev p fuel =
      .ok (curr, rec2, p')) :
    (∀ x y : Int, 0 ≤ x → x ≤ width - 2 → 0 ≤ y → y < height →
      curr (x + 1, y) = prev (x, y)) ∧
    (∀ y : Int, 0 ≤ y → y < height → 2 ≤ width →
      decayRel (prev (0, y)) (curr (0, y)) ∨ curr (0, y) = 15) :=
  MatrixScreensaver.draw_ok_cells g width height recent_rows prev p fuel curr rec2 p' hE

/-- Witness for the amended claim C6 at a concrete input. -/
theorem MatrixScreensaver.draw_shift_exact_decay_col0_only_witness :
    (∀ x y : Int, 0 ≤ x → x ≤ 3 - 2 → 0 ≤ y → y < 1 →
      okBuf (MatrixScreensaver.draw rngHalfZero 3 1 [] prevC6 ⟨0, 0⟩ 5) (x + 1, y) =
        prevC6 (x, y)) ∧
    (∀ y : Int, 0 ≤ y → y < 1 → 2 ≤ (3 : Int) →
      decayRel (prevC6 (0, y))
        (okBuf (MatrixScreensaver.draw rngHalfZero 3 1 [] prevC6 ⟨0, 0⟩ 5) (0, y)) ∨
      okBuf (MatrixScreensaver.draw rngHalfZero 3 1 [] prevC6 ⟨0, 0⟩ 5) (0, y) = 15) :=
  MatrixScreensaver.draw_shift_exact_decay_col0_only rngHalfZero 3 1 [] prevC6 ⟨0, 0⟩ 5
    (okBuf (MatrixScreensaver.draw rngHalfZero 3 1 [] prevC6 ⟨0, 0⟩ 5))
    (okRec (MatrixScreensaver.draw rngHalfZero 3 1 [] prevC6 ⟨0, 0⟩ 5))
    (okPos (MatrixScreensaver.draw rngHalfZero 3 1 [] prevC6 ⟨0, 0⟩ 5))
    (by with_unfolding_all rfl)

/-! ## Claim C3 -/

/-- Counterexample to claim C3 as stated: in the scenario the claim says
curr (0, 1) is either 0 or 15; with the spawn draw not firing (float 1/2
at threshold 0.4) the loop itself leaves 12 at (0, 1), because column 0 IS
written by the shift/decay loop at x = 0. -/
theorem MatrixScreensaver.draw_scenario_counterexample :
    prevC3 (0, 1) = 15 ∧
    drawOk (MatrixScreensaver.draw rngHalfZero 4 3 [] prevC3 ⟨0, 0⟩ 5) = true ∧
    okBuf (MatrixScreensaver.draw rngHalfZero 4 3 [] prevC3 ⟨0, 0⟩ 5) (0, 1) = 12 := by
  refine ⟨rfl, ?_, ?_⟩ <;> with_unfolding_all rfl

/-- Claim C3 amended: in the width 4, height 3 scenario with prev zero
except prev (0, 1) = 15, after one draw curr (1, 1) = 15; column 0 IS
written by the loop (the decay write at x = 0 survives), so curr (0, 1) is
12 or 15 (15 only when the spawn targets row 1), curr (0, 0) and
curr (0, 2) are 0 or 15 (15 only when the spawn targets that row), and
every cell of columns 1..3 other than (1, 1) is 0. -/
theorem MatrixScreensaver.draw_rain_scenario_4x3 (g : Rng) (recent_rows : List Int)
    (p : RngPos) (fuel : Nat) (curr : Buffer) (rec2 : List Int) (p' : RngPos)
    (hE : MatrixScreensaver.draw g 4 3 recent_rows prevC3 p fuel =
      .ok (curr, rec2, p')) :
    curr (1, 1) = 15 ∧
    (curr (0, 1) = 12 ∨ curr (0, 1) = 15) ∧
    (curr (0, 0) = 0 ∨ curr (0, 0) = 15) ∧
    (curr (0, 2) = 0 ∨ curr (0, 2) = 15) ∧
    (∀ x y : Int, 1 ≤ x → x ≤ 3 → 0 ≤ y → y ≤ 2 → (x, y) ≠ (1, 1) →
      curr (x, y) = 0) := by
  obtain ⟨hshift, hcol⟩ :=
    MatrixScreensaver.draw_ok_cells g 4 3 recent_rows prevC3 p fuel curr rec2 p' hE
  refine ⟨?_, ?_, ?_, ?_, ?_⟩
  · have h := hshift 0 1 (by norm_num) (by norm_num) (by norm_num) (by norm_num)
    simpa [prevC3] using h
  · rcases hcol 1 (by norm_num) (by norm_num) (by norm_num) with h | h
    · rw [show prevC3 (0, 1) = 15 from rfl] at h
      unfold decayRel at h
      rw [if_pos rfl] at h
      omega
    · right
      exact h
  · rcases hcol 0 (by norm_num) (by norm_num) (by norm_num) with h | h
    · rw [show prevC3 (0, 0) = 0 from rfl] at h
      unfold decayRel at h
      rw [if_neg (by norm_num)] at h
      omega
    · right
      exact h
  · rcases hcol 2 (by norm_num) (by norm_num) (by norm_num) with h | h
    · rw [show prevC3 (0, 2) = 0 from rfl] at h
      unfold decayRel at h
      rw [if_neg (by norm_num)] at h
      omega
    · right
      exact h
  · intro x y hx1 hx3 hy0 hy2 hne
    have h := hshift (x - 1) y (by omega) (by omega) hy0 (by omega)
    have harith : x - 1 + 1 = x := by omega
    rw [harith] at h
    rw [h]
    have hne2 : ((x - 1 : Int), y) ≠ ((0 : Int), (1 : Int)) := by
      intro he
      have hx := congrArg Prod.fst he
      have hy := congrArg Prod.snd he
      dsimp at hx hy
      exact hne (Prod.ext (by omega) hy)
    simp only [prevC3]
    rw [if_neg hne2]

/-- Witness for the amended claim C3 at a concrete input. -/
theorem MatrixScreensaver.draw_rain_scenario_4x3_witness :
    okBuf (MatrixScreensaver.draw rngHalfZero 4 3 [] prevC3 ⟨0, 0⟩ 5) (1, 1) = 15 ∧
    (okBuf (MatrixScreensaver.draw rngHalfZero 4 3 [] prevC3 ⟨0, 0⟩ 5) (0, 1) = 12 ∨
      okBuf (MatrixScreensaver.draw rngHalfZero 4 3 [] prevC3 ⟨0, 0⟩ 5) (0, 1) = 15) ∧
    (okBuf (MatrixScreensaver.draw rngHalfZero 4 3 [] prevC3 ⟨0, 0⟩ 5) (0, 0) = 0 ∨
      okBuf (MatrixScreensaver.draw rngHalfZero 4 3 [] prevC3 ⟨0, 0⟩ 5) (0, 0) = 15) ∧
    (okBuf (MatrixScreensaver.draw rngHalfZero 4 3 [] prevC3 ⟨0, 0⟩ 5) (0, 2) = 0 ∨
      okBuf (MatrixScreensaver.draw rngHalfZero 4 3 [] prevC3 ⟨0, 0⟩ 5) (0, 2) = 15) ∧
    (∀ x y : Int, 1 ≤ x → x ≤ 3 → 0 ≤ y → y ≤ 2 → (x, y) ≠ (1, 1) →
      okBuf (MatrixScreensaver.draw rngHalfZero 4 3 [] prevC3 ⟨0, 0⟩ 5) (x, y) = 0) :=
  MatrixScreensaver.draw_rain_scenario_4x3 rngHalfZero [] ⟨0, 0⟩ 5
    (okBuf (MatrixScreensaver.draw rngHalfZero 4 3 [] prevC3 ⟨0, 0⟩ 5))
    (okRec (MatrixScreensaver.draw rngHalfZero 4 3 [] prevC3 ⟨0, 0⟩ 5))
    (okPos (MatrixScreensaver.draw rngHalfZero 4 3 [] prevC3 ⟨0, 0⟩ 5))
    (by with_unfolding_all rfl)

/-! ## Claim C7 -/

/-- The stochastic fade keeps a value of [0, 15] inside [0, 15]. -/
theorem fadeValue_bounds (v : Int) (r : ℚ) (h0 : 0 ≤ v) (h15 : v ≤ 15) :
    0 ≤ fadeValue v r ∧ fadeValue v r ≤ 15 := by
  unfold fadeValue
  split <;> constructor
  · exact le_max_right _ _
  · exact max_le (by omega) (by omega)
  · exact le_max_right _ _
  · exact max_le (by omega) (by omega)

/-- One decay step keeps all cells inside [0, 15]. -/
theorem decayStep_bounds (g : Rng) (prev : Buffer) (y : Int)
    (hprev : ∀ q : Int × Int, 0 ≤ prev q ∧ prev q ≤ 15)
    (acc : Buffer × RngPos) (x : Int)
    (hacc : ∀ q : Int × Int, 0 ≤ acc.1 q ∧ acc.1 q ≤ 15) :
    ∀ q : Int × Int, 0 ≤ (decayStep g prev y acc x).1 q ∧
      (decayStep g prev y acc x).1 q ≤ 15 := by
  intro q
  unfold decayStep
  dsimp only [randFloat]
  split
  · rename_i hv
    dsimp only
    unfold bufSet
    split
    · omega
    · split
      · exact hprev _
      · exact hacc _
  · dsimp only
    unfold bufSet
    split
    · exact fadeValue_bounds _ _ (hprev (x, y)).1 (hprev (x, y)).2
    · split
      · exact hprev _
      · exact hacc _

/-- The inner column fold keeps all cells inside [0, 15]. -/
theorem descFold_bounds (g : Rng) (prev : Buffer) (y : Int)
    (hprev : ∀ q : Int × Int, 0 ≤ prev q ∧ prev q ≤ 15) :
    ∀ (xs : List Int) (acc : Buffer × RngPos),
      (∀ q : Int × Int, 0 ≤ acc.1 q ∧ acc.1 q ≤ 15) →
      ∀ q : Int × Int, 0 ≤ (xs.foldl (decayStep g prev y) acc).1 q ∧
        (xs.foldl (decayStep g prev y) acc).1 q ≤ 15 := by
  intro xs
  induction xs with
  | nil =>
    intro acc hacc q
    exact hacc q
  | cons a l ih =>
    intro acc hacc q
    simp only [List.foldl_cons]
    exact ih _ (decayStep_bounds g prev y hprev acc a hacc) q

/-- The row fold keeps all cells inside [0, 15]. -/
theorem rowsFold_bounds (g : Rng) (width : Int) (prev : Buffer)
    (hprev : ∀ q : Int × Int, 0 ≤ prev q ∧ prev q ≤ 15) :
    ∀ (ys : List Int) (acc : Buffer × RngPos),
      (∀ q : Int × Int, 0 ≤ acc.1 q ∧ acc.1 q ≤ 15) →
      ∀ q : Int × Int,
        0 ≤ ((ys.foldl (fun a y2 => shiftRow g width prev y2 a) acc).1) q ∧
        ((ys.foldl (fun a y2 => shiftRow g width prev y2 a) acc).1) q ≤ 15 := by
  intro ys
  induction ys with
  | nil =>
    intro acc hacc q
    exact hacc q
  | cons a l ih =>
    intro acc hacc q
    simp only [List.foldl_cons]
    exact ih _ (descFold_bounds g prev a hprev _ acc hacc) q

/-- Claim C7: if every cell of prev is within [0, 15], then after a
successful MatrixScreensaver.draw every cell of the produced current
buffer is within [0, 15]: draw starts from fill(0), each write is a
prev value, 12 behind a bright head, a clamped fade, or the spawn
value 15. -/
theorem MatrixScreensaver.draw_values_in_range (g : Rng) (width height : Int)
    (recent_rows : List Int) (prev : Buffer) (p : RngPos) (fuel : Nat)
    (curr : Buffer) (rec2 : List Int) (p' : RngPos)
    (hprev : ∀ q : Int × Int, 0 ≤ prev q ∧ prev q ≤ 15)
    (hE : MatrixScreensaver.draw g width height recent_rows prev p fuel =
      .ok (curr, rec2, p')) :
    ∀ q : Int × Int, 0 ≤ curr q ∧ curr q ≤ 15 := by
  unfold MatrixScreensaver.draw at hE
  unfold shiftLoop at hE
  dsimp only at hE
  split at hE
  · exact Except.noConfusion hE
  · rename_i y0 p1 heq
    dsimp only [randFloat] at hE
    injection hE with h1
    injection h1 with hc h2
    intro q
    rw [← hc]
    have hB := rowsFold_bounds g width prev hprev (ascList height.toNat)
      (bufFill 0, p) (fun q2 => by constructor <;> norm_num [bufFill])
    split
    · unfold bufSet
      split
      · norm_num
      · exact hB q
    · exact hB q

/-- Witness for claim C7 at a concrete input. -/
theorem MatrixScreensaver.draw_values_in_range_witness :
    (∀ q : Int × Int, 0 ≤ bufFill 0 q ∧ bufFill 0 q ≤ 15) ∧
    (0 ≤ okBuf (MatrixScreensaver.draw rngHalfZero 2 1 [] (bufFill 0) ⟨0, 0⟩ 5) (0, 0) ∧
      okBuf (MatrixScreensaver.draw rngHalfZero 2 1 [] (bufFill 0) ⟨0, 0⟩ 5) (0, 0) ≤ 15) :=
  ⟨fun q => by constructor <;> norm_num [bufFill],
    MatrixScreensaver.draw_values_in_range rngHalfZero 2 1 [] (bufFill 0) ⟨0, 0⟩ 5
      (okBuf (MatrixScreensaver.draw rngHalfZero 2 1 [] (bufFill 0) ⟨0, 0⟩ 5))
      (okRec (MatrixScreensaver.draw rngHalfZero 2 1 [] (bufFill 0) ⟨0, 0⟩ 5))
      (okPos (MatrixScreensaver.draw rngHalfZero 2 1 [] (bufFill 0) ⟨0, 0⟩ 5))
      (fun q => by constructor <;> norm_num [bufFill])
      (by with_unfolding_all rfl) (0, 0)⟩
